import Mathlib

/-!
# go-serper: retry orchestration and request execution of `client.go`

A shallow embedding of `client.go` (package `serper`).

* Go strings are byte sequences (`GoString`); `len` and slicing count bytes.
* `error` values are modelled by `GoError`, keeping the text and the `%w` chain.
* Library calls whose behaviour is not part of the repository (`strings.ToLower`,
  `json.Marshal`, `json.Unmarshal`, `http.NewRequestWithContext`, `httpClient.Do`,
  `io.ReadAll`, the `select` on `ctx.Done()` / `time.After`) are fields of `Env`.
* `int` and `time.Duration` are 64-bit; arithmetic on them is wrapped by `wrap64`.
-/

namespace Serper

set_option maxRecDepth 100000

/-! ## Strings -/

/-- A Go string: an immutable sequence of bytes. -/
abbrev GoString := List Nat

/-- UTF-8 encoding of one code point (Go source text and string literals are UTF-8). -/
def utf8EncodeChar (c : Char) : GoString :=
  let n := c.toNat
  if n < 128 then [n]
  else if n < 2048 then [192 + n / 64, 128 + n % 64]
  else if n < 65536 then [224 + n / 4096, 128 + n / 64 % 64, 128 + n % 64]
  else [240 + n / 262144, 128 + n / 4096 % 64, 128 + n / 64 % 64, 128 + n % 64]

/-- The bytes of a list of code points. -/
def utf8Encode : List Char → GoString
  | [] => []
  | c :: cs => utf8EncodeChar c ++ utf8Encode cs

/-- The Go string denoted by a literal. -/
def str (s : String) : GoString := utf8Encode s.toList

/-- Go `strings.HasPrefix(s, p)`. -/
def startsWith : GoString → GoString → Bool
  | _, [] => true
  | [], _ :: _ => false
  | a :: s, b :: p => a == b && startsWith s p

/-- Go `strings.Contains(s, substr)`: `substr` occurs in `s` as a contiguous run of bytes. -/
def Contains : GoString → GoString → Bool
  | [], substr => startsWith [] substr
  | a :: s, substr => startsWith (a :: s) substr || Contains s substr

/-- Decimal digits of a natural number, most significant first. -/
def natDigits (n : Nat) : GoString := (Nat.toDigits 10 n).map Char.toNat

/-- The text `%d` prints for an integer. -/
def fmtInt (n : Int) : GoString :=
  match n with
  | Int.ofNat m => natDigits m
  | Int.negSucc m => 45 :: natDigits (m + 1)

/-- Go `len(s)`. -/
def len (s : GoString) : Int := (s.length : Int)

/-- ASCII lowering of one byte (`'A'..'Z'` to `'a'..'z'`). -/
def lowerByte (b : Nat) : Nat := if 65 ≤ b ∧ b ≤ 90 then b + 32 else b

/-- The ASCII path of Go `strings.ToLower`: every byte lowered on its own. -/
def asciiToLower (s : GoString) : GoString := s.map lowerByte

/-- A string of 7-bit bytes only. -/
def IsAscii (s : GoString) : Prop := ∀ b ∈ s, b < 128

instance (s : GoString) : Decidable (IsAscii s) := by unfold IsAscii; infer_instance

/-- What the claims use of Go `strings.ToLower`: an ASCII run at the front of a string is
lowered byte by byte and the rest is lowered as it would be alone. -/
def LowersAsciiFront (toLower : GoString → GoString) : Prop :=
  ∀ p s, IsAscii p → toLower (p ++ s) = asciiToLower p ++ toLower s

/-! ## Machine integers -/

/-- Two's-complement wrap of an integer to 64 bits (`int`, `time.Duration`). -/
def wrap64 (x : Int) : Int := (x + 9223372036854775808) % 18446744073709551616 - 9223372036854775808

/-- A value of a 64-bit signed type. -/
def InInt64 (x : Int) : Prop := -9223372036854775808 ≤ x ∧ x < 9223372036854775808

instance (x : Int) : Decidable (InInt64 x) := by unfold InInt64; infer_instance

/-! ## Errors -/

/-- A Go `error`: its text, and the error it wraps when built by `fmt.Errorf` with `%w`. -/
inductive GoError where
  | leaf (msg : GoString)
  | wrap (front : GoString) (cause : GoError)
  deriving DecidableEq, Repr

/-- Go `err.Error()`. The `%w` verb stands last in every format of `client.go`. -/
def GoError.Error : GoError → GoString
  | .leaf msg => msg
  | .wrap front cause => front ++ cause.Error

/-- Go `errors.Unwrap(err)`. -/
def GoError.Unwrap : GoError → Option GoError
  | .leaf _ => none
  | .wrap _ cause => some cause

/-- Go `fmt.Errorf(front + "%w", err)`; a nil operand prints as `%!w(<nil>)` and nothing is
wrapped. -/
def errorfW (front : GoString) (err : Option GoError) : GoError :=
  match err with
  | some e => .wrap front e
  | none => .leaf (front ++ str "%!w(<nil>)")

/-! ## Data model -/

/-- An injected `Logger` interface value. -/
structure Logger where
  handle : Nat
  deriving DecidableEq, Repr

/-- An `http.RoundTripper`. -/
inductive RoundTripper where
  | defaultTransport
  | custom (handle : Nat)
  | responseCapture (base : RoundTripper)
  deriving DecidableEq, Repr

/-- The fields of `http.Client` that `client.go` sets. -/
structure HTTPClient where
  Timeout : Int
  Transport : RoundTripper
  deriving DecidableEq, Repr

/-- Go `Client`. Pointer and interface fields are `none` when nil. -/
structure Client where
  httpClient : Option HTTPClient
  apiKey : GoString
  baseURL : GoString
  logger : Option Logger
  retryCount : Int
  retryBaseDelay : Int
  requestTimeout : Int
  totalTimeout : Int
  lastRawResponse : GoString
  deriving DecidableEq, Repr

/-- Go `SearchRequest`. -/
structure SearchRequest where
  Query : GoString
  Country : GoString
  Location : GoString
  Language : GoString
  AutoCorrect : Bool
  MaxResults : Int
  Page : Int
  deriving DecidableEq, Repr

/-! ## `shouldRetry` -/

/-- The slice `networkErrors` of `shouldRetry`. -/
def networkErrors : List GoString :=
  [str "timeout", str "connection", str "network", str "dial", str "dns", str "500", str "502",
   str "503", str "504", str "internal server error", str "bad gateway",
   str "service unavailable", str "gateway timeout"]

/-- The slice `noRetry` of `shouldRetry`. -/
def noRetry : List GoString :=
  [str "401", str "403", str "400", str "unauthorized", str "forbidden", str "bad request",
   str "invalid api key", str "authentication", str "unmarshal", str "json", str "parse"]

/-- Go `(*Client).shouldRetry`, with `strings.ToLower` as `toLower`. -/
def shouldRetry (toLower : GoString → GoString) (c : Client) (err : GoError) (attempt : Int) :
    Bool :=
  if attempt ≥ c.retryCount then false
  else
    let msg := toLower err.Error
    if networkErrors.any (fun s => Contains msg s) then true
    else if Contains msg (str "rate limit") || Contains msg (str "429") then true
    else if noRetry.any (fun s => Contains msg s) then false
    else true

/-- The five-rule classification as the specification words it, on the text `m` of the error:
substring containment on the lower-cased message, rules tried in order. -/
def shouldRetryReference (toLower : GoString → GoString) (retryCount : Int) (m : GoString)
    (a : Int) : Bool :=
  if a ≥ retryCount then false
  else if ∃ k ∈ [str "timeout", str "connection", str "network", str "dial", str "dns",
      str "500", str "502", str "503", str "504", str "internal server error", str "bad gateway",
      str "service unavailable", str "gateway timeout"], k <:+: toLower m then true
  else if str "rate limit" <:+: toLower m ∨ str "429" <:+: toLower m then true
  else if ∃ k ∈ [str "401", str "403", str "400", str "unauthorized", str "forbidden",
      str "bad request", str "invalid api key", str "authentication", str "unmarshal",
      str "json", str "parse"], k <:+: toLower m then false
  else true

/-! ## Options and construction -/

/-- Go `time.Second`, in nanoseconds. -/
def Second : Int := 1000000000

/-- The transport `WithTimeouts` and `NewClient` install: a `responseCapture` over
`http.DefaultTransport`. -/
def captureTransport : RoundTripper := .responseCapture .defaultTransport

/-- Go `WithHTTPClient`. -/
def WithHTTPClient (client : Option HTTPClient) (c : Client) : Client :=
  { c with httpClient := client }

/-- Go `WithLogger`. -/
def WithLogger (logger : Option Logger) (c : Client) : Client :=
  { c with logger := logger }

/-- Go `WithRetryConfig`. -/
def WithRetryConfig (retryCount : Int) (baseDelay : Int) (c : Client) : Client :=
  { c with retryCount := retryCount, retryBaseDelay := baseDelay }

/-- Go `WithTimeouts`. -/
def WithTimeouts (requestTimeout totalTimeout : Int) (c : Client) : Client :=
  { c with
    requestTimeout := requestTimeout
    totalTimeout := totalTimeout
    httpClient := some { Timeout := requestTimeout, Transport := captureTransport } }

/-- Go `WithBaseURL`. -/
def WithBaseURL (baseURL : GoString) (c : Client) : Client :=
  { c with baseURL := baseURL }

/-- The five options of `client.go`, as data. -/
inductive ClientOption where
  | httpClient (client : Option HTTPClient)
  | logger (logger : Option Logger)
  | retryConfig (retryCount : Int) (baseDelay : Int)
  | timeouts (requestTimeout totalTimeout : Int)
  | baseURL (baseURL : GoString)
  deriving DecidableEq, Repr

/-- The function an option denotes. -/
def ClientOption.apply : ClientOption → Client → Client
  | .httpClient h => WithHTTPClient h
  | .logger l => WithLogger l
  | .retryConfig n d => WithRetryConfig n d
  | .timeouts r t => WithTimeouts r t
  | .baseURL u => WithBaseURL u

/-- The struct literal at the head of `NewClient`. -/
def initialClient (apiKey : GoString) : Client :=
  { httpClient := none
    apiKey := apiKey
    baseURL := str "https://google.serper.dev"
    logger := none
    retryCount := 3
    retryBaseDelay := 1 * Second
    requestTimeout := 10 * Second
    totalTimeout := 30 * Second
    lastRawResponse := [] }

/-- The closing step of `NewClient`: a nil `httpClient` is replaced by a fresh one. -/
def ensureHTTPClient (client : Client) : Client :=
  if client.httpClient = none then
    { client with
      httpClient := some { Timeout := client.requestTimeout, Transport := captureTransport } }
  else client

/-- Go `NewClient`. -/
def NewClient (apiKey : GoString) (opts : List ClientOption) : Client :=
  ensureHTTPClient (opts.foldl (fun client opt => opt.apply client) (initialClient apiKey))

/-! ## The environment and the trace -/

/-- Severity of a logger call. -/
inductive LogLevel where
  | debug | info | warn | error
  deriving DecidableEq, Repr

/-- One variadic argument of a logger call. -/
inductive LogArg where
  | text (s : GoString)
  | int (n : Int)
  | err (e : GoError)
  deriving DecidableEq, Repr

/-- A call `c.logger.<level>(msg, args...)`. -/
structure LogCall where
  level : LogLevel
  msg : GoString
  args : List LogArg
  deriving DecidableEq, Repr

/-- The request built by `http.NewRequestWithContext` and the two `Header.Set` calls. -/
structure HTTPRequest where
  method : GoString
  url : GoString
  body : GoString
  header : List (GoString × GoString)
  deriving DecidableEq, Repr

/-- What `c.httpClient.Do(httpReq)` followed by `io.ReadAll(resp.Body)` yields. -/
inductive HTTPOutcome where
  | doError (err : GoError)
  | readError (err : GoError)
  | response (statusCode : Int) (respBody : GoString)
  deriving DecidableEq, Repr

/-- The world around one call of `performRequestWithRetry`. `roundTrip n` answers the
invocation of the executor that `n` invocations precede; `ctxDone attempt delay` is the
outcome of the `select` before `attempt`: `some e` when `ctx.Done()` is received (with
`ctx.Err() = e`), `none` when `time.After(delay)` is. -/
structure Env where
  toLower : GoString → GoString
  marshal : SearchRequest → Except GoError GoString
  newRequest : GoString → Option GoError
  roundTrip : Nat → HTTPRequest → HTTPOutcome
  unmarshal : GoString → Option GoError
  ctxDone : Int → Int → Option GoError

/-- An observable step of a call, in program order. -/
inductive Event where
  | invoke (endpoint : GoString)
  | log (call : LogCall)
  | marshal (req : SearchRequest)
  | send (httpReq : HTTPRequest)
  | wait (delay : Int)
  deriving DecidableEq, Repr

/-- The guarded logger call `if c.logger != nil { c.logger.<level>(...) }`. -/
def logIf (c : Client) (level : LogLevel) (msg : GoString) (args : List LogArg) : List Event :=
  match c.logger with
  | some _ => [.log ⟨level, msg, args⟩]
  | none => []

/-- Number of invocations of `performRequest` in a trace. -/
def invocations (t : List Event) : Nat :=
  (t.filter (fun e => match e with | .invoke _ => true | _ => false)).length

/-- The backoff waits of a trace, in order. -/
def waits (t : List Event) : List Int :=
  t.filterMap (fun e => match e with | .wait d => some d | _ => none)

/-- The requests handed to `json.Marshal` in a trace, in order. -/
def marshalled (t : List Event) : List SearchRequest :=
  t.filterMap (fun e => match e with | .marshal r => some r | _ => none)

/-- The `Warn` calls of a trace. -/
def warnings (t : List Event) : List LogCall :=
  t.filterMap (fun e => match e with
    | .log call => if call.level = .warn then some call else none
    | _ => none)

/-! ## `performRequest` -/

/-- The text of the non-200 error:
`fmt.Errorf("api error: status %d, body: %s", resp.StatusCode, string(respBody))`. -/
def apiErrorText (statusCode : Int) (respBody : GoString) : GoString :=
  str "api error: status " ++ fmtInt statusCode ++ str ", body: " ++ respBody

/-- Go `(*Client).performRequest`, as the `n`-th invocation (counted from 0): the returned
error (`none` for nil) and the events of the invocation. `req` is passed by value, so the
clamped query lives in the local copy only. -/
def performRequest (env : Env) (c : Client) (req : SearchRequest) (endpoint : GoString)
    (n : Nat) : Option GoError × List Event :=
  let t : List Event := [.invoke endpoint]
  let t := t ++ logIf c .debug (str "sending request") [.text (str "endpoint"), .text endpoint]
  let clamp : SearchRequest × List Event :=
    if len req.Query > 400 then
      ({ req with Query := req.Query.take 400 },
        t ++ logIf c .info (str "clamping query to 400 chars")
          [.text (str "len"), .int (len req.Query)])
    else (req, t)
  let req := clamp.1
  let t := clamp.2 ++ [.marshal req]
  match env.marshal req with
  | .error err => (some (.wrap (str "marshal request: ") err), t)
  | .ok body =>
    match env.newRequest (c.baseURL ++ endpoint) with
    | some err => (some (.wrap (str "create request: ") err), t)
    | none =>
      let httpReq : HTTPRequest :=
        { method := str "POST", url := c.baseURL ++ endpoint, body := body,
          header := [(str "Content-Type", str "application/json"), (str "X-API-KEY", c.apiKey)] }
      let t := t ++ [.send httpReq]
      match env.roundTrip n httpReq with
      | .doError err =>
        (some (.wrap (str "request error: ") err),
          t ++ logIf c .error (str "request failed")
            [.text (str "endpoint"), .text endpoint, .text (str "error"), .err err])
      | .readError err => (some (.wrap (str "read response: ") err), t)
      | .response statusCode respBody =>
        if statusCode ≠ 200 then
          (some (.leaf (apiErrorText statusCode respBody)),
            t ++ logIf c .error (str "api error")
              [.text (str "status"), .int statusCode, .text (str "body"), .text respBody])
        else
          match env.unmarshal respBody with
          | some err =>
            (some (.wrap (str "unmarshal response: ") err),
              t ++ logIf c .error (str "unmarshal error") [.text (str "error"), .err err])
          | none =>
            (none, t ++ logIf c .debug (str "received response")
              [.text (str "endpoint"), .text endpoint])

/-! ## `performRequestWithRetry` -/

/-- The delay of the wait before `attempt`:
`c.retryBaseDelay * time.Duration(2*attempt-1)`, in 64-bit arithmetic. -/
def backoffDelay (c : Client) (attempt : Int) : Int :=
  wrap64 (c.retryBaseDelay * wrap64 (2 * attempt - 1))

/-- The statement after the loop:
`fmt.Errorf("request failed after %d attempts: %w", c.retryCount+1, lastErr)`. -/
def failedAfter (c : Client) (lastErr : Option GoError) : GoError :=
  errorfW (str "request failed after " ++ fmtInt (wrap64 (c.retryCount + 1)) ++ str " attempts: ")
    lastErr

/-- The return inside the `select`:
`fmt.Errorf("request cancelled during retry delay: %w", ctx.Err())`. -/
def cancelledDuringDelay (ctxErr : GoError) : GoError :=
  errorfW (str "request cancelled during retry delay: ") (some ctxErr)

/-- The `for attempt := 0; attempt <= c.retryCount; attempt++` loop of
`performRequestWithRetry`. `remaining` counts the iterations the loop condition still
admits, `(c.retryCount + 1 - attempt).toNat`; at `0` the condition fails and control reaches
the statement after the loop, where `break` also lands. The increment cannot overflow: it
runs only after `shouldRetry` has found `attempt < c.retryCount`. -/
def retryLoop (env : Env) (c : Client) (req : SearchRequest) (endpoint : GoString) :
    (remaining : Nat) → (attempt : Int) → (lastErr : Option GoError) → (t : List Event) →
    Option GoError × List Event
  | 0, _, lastErr, t => (some (failedAfter c lastErr), t)
  | remaining + 1, attempt, _, t =>
    let t := if attempt > 0 then
        t ++ logIf c .warn (str "retrying request") [.text (str "attempt"), .int attempt]
      else t
    let cancelled : Option GoError :=
      if attempt > 0 then env.ctxDone attempt (backoffDelay c attempt) else none
    let t := if attempt > 0 then t ++ [.wait (backoffDelay c attempt)] else t
    match cancelled with
    | some ctxErr => (some (cancelledDuringDelay ctxErr), t)
    | none =>
      let r := performRequest env c req endpoint (invocations t)
      let t := t ++ r.2
      match r.1 with
      | none =>
        (none, if attempt > 0 then
            t ++ logIf c .info (str "request succeeded after retry")
              [.text (str "attempt"), .int attempt]
          else t)
      | some err =>
        if !shouldRetry env.toLower c err attempt then (some (failedAfter c (some err)), t)
        else retryLoop env c req endpoint remaining (attempt + 1) (some err) t

/-- Go `(*Client).performRequestWithRetry`: the returned error and the trace of the call. -/
def performRequestWithRetry (env : Env) (c : Client) (req : SearchRequest)
    (endpoint : GoString) : Option GoError × List Event :=
  retryLoop env c req endpoint (c.retryCount + 1).toNat 0 none []

/-! ## Concrete worlds used at explicit inputs -/

/-- A world whose server answers every request with the same status and body; encoding and
request construction succeed, decoding fails with `decodeErr` when given, and no wait is cut
short. -/
def constantServer (statusCode : Int) (respBody : GoString) (decodeErr : Option GoError) : Env :=
  { toLower := asciiToLower
    marshal := fun r => .ok r.Query
    newRequest := fun _ => none
    roundTrip := fun _ _ => .response statusCode respBody
    unmarshal := fun _ => decodeErr
    ctxDone := fun _ _ => none }

/-- A world whose transport fails every request with the same error. -/
def failingTransport (err : GoError) : Env :=
  { toLower := asciiToLower
    marshal := fun r => .ok r.Query
    newRequest := fun _ => none
    roundTrip := fun _ _ => .doError err
    unmarshal := fun _ => none
    ctxDone := fun _ _ => none }

/-- A request carrying only a query. -/
def queryOnly (q : GoString) : SearchRequest :=
  { Query := q, Country := [], Location := [], Language := [], AutoCorrect := false,
    MaxResults := 0, Page := 0 }

/-! ## Vocabulary of the proofs -/

/-- Some proper, non-empty front part of `k` ends `p`: `k` could lie across the seam of
`p ++ s`. -/
def straddles (p k : GoString) : Bool :=
  (List.range k.length).any (fun n => decide (0 < n) && (k.take n).isSuffixOf p)

/-- No keyword of `ks` occurs in `p` or lies across its end. -/
def cleanFront (p : GoString) (ks : List GoString) : Bool :=
  ks.all (fun k => !Contains p k && !straddles p k)

/-- The keywords of rules 2 and 3. -/
def retryKeywords : List GoString := networkErrors ++ [str "rate limit", str "429"]

/-- The fixed front of the non-200 error text for one status code. -/
def apiErrorFront (statusCode : Int) : GoString :=
  str "api error: status " ++ fmtInt statusCode ++ str ", body: "

/-- The events of the `if attempt > 0` block that opens an iteration. -/
def preWait (c : Client) (attempt : Int) : List Event :=
  if attempt > 0 then
    logIf c .warn (str "retrying request") [.text (str "attempt"), .int attempt] ++
      [.wait (backoffDelay c attempt)]
  else []

/-- The `Info` call after a success that followed a retry. -/
def successLog (c : Client) (attempt : Int) : List Event :=
  if attempt > 0 then
    logIf c .info (str "request succeeded after retry") [.text (str "attempt"), .int attempt]
  else []

/-- The events of iteration `i` when its wait is not cut short. -/
def attemptEvents (env : Env) (c : Client) (req : SearchRequest) (endpoint : GoString)
    (i : Nat) : List Event :=
  preWait c i ++ (performRequest env c req endpoint i).2

/-- The trace of the first `k` iterations when none of their waits is cut short. -/
def tracePrefix (env : Env) (c : Client) (req : SearchRequest) (endpoint : GoString) :
    Nat → List Event
  | 0 => []
  | k + 1 => tracePrefix env c req endpoint k ++ attemptEvents env c req endpoint k

/-- The value of `lastErr` at the head of iteration `k` when every earlier attempt failed. -/
def lastErrAt (env : Env) (c : Client) (req : SearchRequest) (endpoint : GoString) :
    Nat → Option GoError
  | 0 => none
  | k + 1 => (performRequest env c req endpoint k).1

/-- A world whose server answers status 500 to the first `failures` requests and 200 to the
rest, with decodable bodies. -/
def flakyServer (failures : Nat) : Env :=
  { toLower := asciiToLower
    marshal := fun r => .ok r.Query
    newRequest := fun _ => none
    roundTrip := fun n _ =>
      if n < failures then .response 500 [] else .response 200 (str "\x7b\x7d")
    unmarshal := fun _ => none
    ctxDone := fun _ _ => none }

/-- A world whose server always answers status 500 and whose deadline expires during the
wait before attempt `cut` (and stays expired). -/
def expiringDeadline (cut : Int) : Env :=
  { toLower := asciiToLower
    marshal := fun r => .ok r.Query
    newRequest := fun _ => none
    roundTrip := fun _ _ => .response 500 []
    unmarshal := fun _ => none
    ctxDone := fun attempt _ =>
      if cut ≤ attempt then some (.leaf (str "context deadline exceeded")) else none }

/-- The query after the clamp, in bytes: unchanged up to 400 bytes, else its first 400. -/
def clampedQuery (q : GoString) : GoString := if q.length ≤ 400 then q else q.take 400

/-- The request `performRequest` hands to `json.Marshal`. -/
def clampedRequest (req : SearchRequest) : SearchRequest :=
  { req with Query := clampedQuery req.Query }

/-- The client after a list of options, before the closing `httpClient` step. -/
def applyOptions (opts : List ClientOption) (client : Client) : Client :=
  opts.foldl (fun client opt => opt.apply client) client

/-- The loop of `performRequestWithRetry` as written, with its condition
`attempt <= c.retryCount` tested at the head of each iteration and the 64-bit increment
`attempt++`; `fuel` bounds the number of condition tests and `none` means it ran out. -/
def retryLoopFuel (env : Env) (c : Client) (req : SearchRequest) (endpoint : GoString) :
    (fuel : Nat) → (attempt : Int) → (lastErr : Option GoError) → (t : List Event) →
    Option (Option GoError × List Event)
  | 0, _, _, _ => none
  | fuel + 1, attempt, lastErr, t =>
    if attempt ≤ c.retryCount then
      let t := if attempt > 0 then
          t ++ logIf c .warn (str "retrying request") [.text (str "attempt"), .int attempt]
        else t
      let cancelled : Option GoError :=
        if attempt > 0 then env.ctxDone attempt (backoffDelay c attempt) else none
      let t := if attempt > 0 then t ++ [.wait (backoffDelay c attempt)] else t
      match cancelled with
      | some ctxErr => some (some (cancelledDuringDelay ctxErr), t)
      | none =>
        let r := performRequest env c req endpoint (invocations t)
        let t := t ++ r.2
        match r.1 with
        | none =>
          some (none, if attempt > 0 then
              t ++ logIf c .info (str "request succeeded after retry")
                [.text (str "attempt"), .int attempt]
            else t)
        | some err =>
          if !shouldRetry env.toLower c err attempt then
            some (some (failedAfter c (some err)), t)
          else retryLoopFuel env c req endpoint fuel (wrap64 (attempt + 1)) (some err) t
    else some (some (failedAfter c lastErr), t)

/-! ## Lemmas on strings -/

theorem startsWith_iff (s p : GoString) : startsWith s p = true ↔ p <+: s := by
  induction s generalizing p with
  | nil =>
    cases p with
    | nil => simp [startsWith]
    | cons b p => simp [startsWith]
  | cons a s ih =>
    cases p with
    | nil => simp [startsWith]
    | cons b p =>
      simp only [startsWith, Bool.and_eq_true, beq_iff_eq, ih, List.cons_prefix_cons]
      constructor
      · rintro ⟨h, hp⟩; exact ⟨h.symm, hp⟩
      · rintro ⟨h, hp⟩; exact ⟨h.symm, hp⟩

theorem Contains_iff (s substr : GoString) : Contains s substr = true ↔ substr <:+: s := by
  induction s with
  | nil =>
    simp only [Contains, startsWith_iff]
    constructor
    · intro h; exact h.isInfix
    · intro h; rw [List.infix_nil] at h; subst h; exact List.prefix_refl _
  | cons a s ih =>
    simp only [Contains, Bool.or_eq_true, startsWith_iff, ih, List.infix_cons_iff]

theorem infix_append_cases (k p b : GoString) (h : k <:+: p ++ b) :
    k <:+: p ∨ k <:+: b ∨
      ∃ n, 0 < n ∧ n < k.length ∧ k.take n <:+ p ∧ k.drop n <+: b := by
  induction p with
  | nil => right; left; simpa using h
  | cons a p ih =>
    rw [List.cons_append, List.infix_cons_iff] at h
    rcases h with h | h
    · rw [← List.cons_append] at h
      by_cases hlen : k.length ≤ (a :: p).length
      · left
        exact (List.prefix_of_prefix_length_le h (List.prefix_append _ _) hlen).isInfix
      · right; right
        have hlt : (a :: p).length < k.length := not_le.mp hlen
        have hq : (a :: p) <+: k :=
          List.prefix_of_prefix_length_le (List.prefix_append _ _) h hlt.le
        obtain ⟨k2, rfl⟩ := hq
        refine ⟨(a :: p).length, by simp, hlt, ?_, ?_⟩
        · rw [List.take_left]
        · rw [List.drop_left]
          exact (List.prefix_append_right_inj _).1 h
    · rcases ih h with h1 | h1 | ⟨n, h0, hn, hs, hd⟩
      · left; exact List.infix_cons h1
      · right; left; exact h1
      · right; right
        exact ⟨n, h0, hn, hs.trans (List.suffix_cons a p), hd⟩

theorem Contains_append_of_cleanFront (p b k : GoString) (hp : Contains p k = false)
    (hs : straddles p k = false) : Contains (p ++ b) k = Contains b k := by
  rw [Bool.eq_iff_iff, Contains_iff, Contains_iff]
  constructor
  · intro h
    rcases infix_append_cases k p b h with h1 | h1 | ⟨n, h0, hn, hsuf, _⟩
    · rw [← Contains_iff, hp] at h1; exact absurd h1 (by simp)
    · exact h1
    · exfalso
      have : straddles p k = true := by
        unfold straddles
        rw [List.any_eq_true]
        exact ⟨n, List.mem_range.2 hn, by simp [h0, hsuf]⟩
      rw [hs] at this; exact absurd this (by simp)
  · intro h
    exact h.trans (List.suffix_append p b).isInfix

theorem any_Contains_append (p b : GoString) (ks : List GoString)
    (h : cleanFront p ks = true) :
    ks.any (fun k => Contains (p ++ b) k) = ks.any (fun k => Contains b k) := by
  unfold cleanFront at h
  rw [List.all_eq_true] at h
  induction ks with
  | nil => rfl
  | cons k ks ih =>
    have hk := h k (List.mem_cons_self _ _)
    simp only [Bool.and_eq_true, Bool.not_eq_true', ] at hk
    rw [List.any_cons, List.any_cons, Contains_append_of_cleanFront p b k hk.1 hk.2,
      ih (fun x hx => h x (List.mem_cons_of_mem _ hx))]

theorem cleanFront_mono (p : GoString) (ks ks' : List GoString) (hsub : ∀ k ∈ ks', k ∈ ks)
    (h : cleanFront p ks = true) : cleanFront p ks' = true := by
  unfold cleanFront at *
  rw [List.all_eq_true] at *
  exact fun k hk => h k (hsub k hk)

theorem Contains_append_of_mem (p b k : GoString) (ks : List GoString)
    (h : cleanFront p ks = true) (hk : k ∈ ks) : Contains (p ++ b) k = Contains b k := by
  unfold cleanFront at h
  rw [List.all_eq_true] at h
  have := h k hk
  simp only [Bool.and_eq_true, Bool.not_eq_true'] at this
  exact Contains_append_of_cleanFront p b k this.1 this.2

/-- With a keyword-free front, the verdict on a message is the verdict on what follows. -/
theorem shouldRetry_of_front (toLower : GoString → GoString) (c : Client) (err : GoError)
    (p b : GoString) (a : Int) (hlow : toLower err.Error = p ++ b)
    (hclean : cleanFront p (retryKeywords ++ noRetry) = true) :
    shouldRetry toLower c err a = shouldRetry (fun s => s) c (.leaf b) a := by
  have h1 : cleanFront p networkErrors = true :=
    cleanFront_mono p _ _ (fun k hk => by simp [retryKeywords, hk]) hclean
  have h2 : cleanFront p noRetry = true :=
    cleanFront_mono p _ _ (fun k hk => by simp [hk]) hclean
  have h3 : Contains (p ++ b) (str "rate limit") = Contains b (str "rate limit") :=
    Contains_append_of_mem p b _ _ hclean (by simp [retryKeywords])
  have h4 : Contains (p ++ b) (str "429") = Contains b (str "429") :=
    Contains_append_of_mem p b _ _ hclean (by simp [retryKeywords])
  unfold shouldRetry
  simp only [GoError.Error, hlow, any_Contains_append p b _ h1, any_Contains_append p b _ h2,
    h3, h4]

/-- A message that keeps a retry keyword in its lowered front is retried while attempts
remain. -/
theorem shouldRetry_of_front_keyword (toLower : GoString → GoString) (c : Client)
    (err : GoError) (p b k : GoString) (a : Int) (hlow : toLower err.Error = p ++ b)
    (hk : k ∈ retryKeywords) (hin : Contains p k = true) (ha : a < c.retryCount) :
    shouldRetry toLower c err a = true := by
  have hc : Contains (toLower err.Error) k = true := by
    rw [hlow, Contains_iff]
    exact ((Contains_iff _ _).1 hin).trans (List.prefix_append p b).isInfix
  unfold shouldRetry
  rw [if_neg (not_le.mpr ha)]
  rcases List.mem_append.1 hk with hk | hk
  · have : networkErrors.any (fun s => Contains (toLower err.Error) s) = true :=
      List.any_eq_true.2 ⟨k, hk, hc⟩
    simp only [this, if_true]
  · have : (Contains (toLower err.Error) (str "rate limit") ||
        Contains (toLower err.Error) (str "429")) = true := by
      simp only [List.mem_cons, List.mem_singleton, List.not_mem_nil, or_false] at hk
      rcases hk with rfl | rfl
      · simp [hc]
      · simp [hc]
    simp only [this, if_true]
    split_ifs <;> rfl

theorem shouldRetry_false_of_exhausted (toLower : GoString → GoString) (c : Client)
    (err : GoError) (a : Int) (ha : c.retryCount ≤ a) : shouldRetry toLower c err a = false := by
  unfold shouldRetry
  rw [if_pos ha]

theorem shouldRetry_lt (toLower : GoString → GoString) (c : Client)
    (err : GoError) (a : Int) (h : shouldRetry toLower c err a = true) : a < c.retryCount := by
  by_contra hn
  rw [shouldRetry_false_of_exhausted toLower c err a (not_lt.mp hn)] at h
  exact absurd h (by simp)

theorem invocations_append (t u : List Event) :
    invocations (t ++ u) = invocations t + invocations u := by
  simp [invocations, List.filter_append]

theorem waits_append (t u : List Event) : waits (t ++ u) = waits t ++ waits u := by
  simp [waits, List.filterMap_append]

theorem warnings_append (t u : List Event) : warnings (t ++ u) = warnings t ++ warnings u := by
  simp [warnings, List.filterMap_append]

theorem marshalled_append (t u : List Event) :
    marshalled (t ++ u) = marshalled t ++ marshalled u := by
  simp [marshalled, List.filterMap_append]

theorem invocations_logIf (c : Client) (l : LogLevel) (m : GoString) (args : List LogArg) :
    invocations (logIf c l m args) = 0 := by
  unfold logIf; cases c.logger <;> rfl

theorem waits_logIf (c : Client) (l : LogLevel) (m : GoString) (args : List LogArg) :
    waits (logIf c l m args) = [] := by
  unfold logIf; cases c.logger <;> rfl

theorem marshalled_logIf (c : Client) (l : LogLevel) (m : GoString) (args : List LogArg) :
    marshalled (logIf c l m args) = [] := by
  unfold logIf; cases c.logger <;> rfl

theorem warnings_logIf (c : Client) (l : LogLevel) (m : GoString) (args : List LogArg)
    (hl : l ≠ .warn) : warnings (logIf c l m args) = [] := by
  unfold logIf; cases c.logger
  · rfl
  · simp [warnings, hl]

theorem invocations_preWait (c : Client) (a : Int) : invocations (preWait c a) = 0 := by
  unfold preWait
  split_ifs
  · rw [invocations_append, invocations_logIf]; rfl
  · rfl

theorem waits_preWait (c : Client) (a : Int) :
    waits (preWait c a) = if a > 0 then [backoffDelay c a] else [] := by
  unfold preWait
  split_ifs
  · rw [waits_append, waits_logIf]; rfl
  · rfl

theorem invocations_nil : invocations [] = 0 := rfl

theorem waits_nil : waits [] = [] := rfl

theorem warnings_nil : warnings [] = [] := rfl

theorem invocations_cons (e : Event) (t : List Event) :
    invocations (e :: t) = (match e with | .invoke _ => 1 | _ => 0) + invocations t := by
  cases e <;> simp [invocations, List.filter_cons]
  omega

theorem waits_cons (e : Event) (t : List Event) :
    waits (e :: t) = (match e with | .wait d => [d] | _ => []) ++ waits t := by
  cases e <;> simp [waits, List.filterMap_cons]

theorem warnings_cons (e : Event) (t : List Event) :
    warnings (e :: t) =
      (match e with
        | .log call => if call.level = .warn then [call] else []
        | _ => []) ++ warnings t := by
  cases e with
  | log call => by_cases h : call.level = .warn <;> simp [warnings, List.filterMap_cons, h]
  | _ => simp [warnings, List.filterMap_cons]

theorem invocations_performRequest (env : Env) (c : Client) (req : SearchRequest)
    (endpoint : GoString) (n : Nat) :
    invocations (performRequest env c req endpoint n).2 = 1 := by
  unfold performRequest
  simp only
  split_ifs <;> (repeat' split) <;>
    simp [invocations_append, invocations_logIf, invocations_cons, invocations_nil]

theorem waits_performRequest (env : Env) (c : Client) (req : SearchRequest)
    (endpoint : GoString) (n : Nat) :
    waits (performRequest env c req endpoint n).2 = [] := by
  unfold performRequest
  simp only
  split_ifs <;> (repeat' split) <;>
    simp [waits_append, waits_logIf, waits_cons, waits_nil]

theorem warnings_performRequest (env : Env) (c : Client) (req : SearchRequest)
    (endpoint : GoString) (n : Nat) :
    warnings (performRequest env c req endpoint n).2 = [] := by
  unfold performRequest
  simp only
  split_ifs <;> (repeat' split) <;>
    simp [warnings_append, warnings_logIf, warnings_cons, warnings_nil]

theorem invocations_tracePrefix (env : Env) (c : Client) (req : SearchRequest)
    (endpoint : GoString) (k : Nat) : invocations (tracePrefix env c req endpoint k) = k := by
  induction k with
  | zero => rfl
  | succ k ih =>
    simp only [tracePrefix, attemptEvents, invocations_append, ih, invocations_preWait,
      invocations_performRequest]

/-- An iteration whose wait is cut short returns the cancellation error at once. -/
theorem retryLoop_cancelled (env : Env) (c : Client) (req : SearchRequest)
    (endpoint : GoString) (remaining : Nat) (a : Int) (lastErr : Option GoError)
    (t : List Event) (ctxErr : GoError) (ha : a > 0)
    (hc : env.ctxDone a (backoffDelay c a) = some ctxErr) :
    retryLoop env c req endpoint (remaining + 1) a lastErr t =
      (some (cancelledDuringDelay ctxErr), t ++ preWait c a) := by
  simp [retryLoop, preWait, ha, hc]

/-- An iteration whose wait (if any) elapses runs the executor and acts on its result. -/
theorem retryLoop_attempt (env : Env) (c : Client) (req : SearchRequest)
    (endpoint : GoString) (remaining : Nat) (a : Int) (lastErr : Option GoError)
    (t : List Event) (hc : a > 0 → env.ctxDone a (backoffDelay c a) = none) :
    retryLoop env c req endpoint (remaining + 1) a lastErr t =
      match (performRequest env c req endpoint (invocations t)).1 with
      | none =>
        (none, t ++ preWait c a ++ (performRequest env c req endpoint (invocations t)).2 ++
          successLog c a)
      | some err =>
        if shouldRetry env.toLower c err a = false then
          (some (failedAfter c (some err)),
            t ++ preWait c a ++ (performRequest env c req endpoint (invocations t)).2)
        else
          retryLoop env c req endpoint remaining (a + 1) (some err)
            (t ++ preWait c a ++ (performRequest env c req endpoint (invocations t)).2) := by
  by_cases ha : a > 0
  · have hinv : invocations (t ++ (logIf c .warn (str "retrying request")
        [.text (str "attempt"), .int a] ++ [Event.wait (backoffDelay c a)])) = invocations t := by
      simp [invocations_append, invocations_logIf, invocations_cons, invocations_nil]
    simp only [retryLoop, preWait, successLog, ha, hc ha, if_true, List.append_assoc, hinv]
    cases (performRequest env c req endpoint (invocations t)).1 <;> simp
  · simp only [retryLoop, preWait, successLog, ha, if_false, List.append_nil]
    cases (performRequest env c req endpoint (invocations t)).1 <;> simp

/-- While every attempt fails with an error that `shouldRetry` accepts and no wait is cut
short, the loop reaches the head of iteration `k` with the trace of `k` iterations. -/
theorem retryLoop_failures (env : Env) (c : Client) (req : SearchRequest)
    (endpoint : GoString) (k : Nat)
    (hfail : ∀ i, i < k → ∃ e, (performRequest env c req endpoint i).1 = some e ∧
      shouldRetry env.toLower c e (i : Int) = true)
    (hwait : ∀ i : Nat, 0 < i → i < k → env.ctxDone (i : Int) (backoffDelay c (i : Int)) = none)
    (remaining : Nat) :
    retryLoop env c req endpoint (k + remaining) 0 none [] =
      retryLoop env c req endpoint remaining (k : Int) (lastErrAt env c req endpoint k)
        (tracePrefix env c req endpoint k) := by
  induction k generalizing remaining with
  | zero => simp [lastErrAt, tracePrefix]
  | succ k ih =>
    have h1 := ih (fun i hi => hfail i (Nat.lt_succ_of_lt hi))
      (fun i h0 hi => hwait i h0 (Nat.lt_succ_of_lt hi)) (remaining + 1)
    rw [show k + 1 + remaining = k + (remaining + 1) by omega, h1]
    obtain ⟨e, he, hs⟩ := hfail k (Nat.lt_succ_self k)
    rw [retryLoop_attempt env c req endpoint remaining (k : Int) _ _
      (fun hk => hwait k (by exact_mod_cast hk) (Nat.lt_succ_self k))]
    rw [invocations_tracePrefix, he]
    simp only [hs, Bool.true_eq_false, if_false]
    simp only [lastErrAt, he, tracePrefix, attemptEvents, List.append_assoc, Nat.cast_succ]

theorem wrap64_of_inInt64 (x : Int) (h : InInt64 x) : wrap64 x = x := by
  unfold wrap64; unfold InInt64 at h; omega

theorem wrap64_mul_wrap64 (d y : Int) : wrap64 (d * wrap64 y) = wrap64 (d * y) := by
  have hy : wrap64 y = y - 18446744073709551616 * ((y + 9223372036854775808) / 18446744073709551616) := by
    unfold wrap64; rw [Int.emod_def]; ring
  rw [hy]
  unfold wrap64
  have : d * (y - 18446744073709551616 * ((y + 9223372036854775808) / 18446744073709551616))
      + 9223372036854775808
      = (d * y + 9223372036854775808)
        + 18446744073709551616 * (-(d * ((y + 9223372036854775808) / 18446744073709551616))) := by
    ring
  rw [this, Int.add_mul_emod_self_left]

theorem backoffDelay_eq (c : Client) (a : Int) (h : InInt64 (c.retryBaseDelay * (2 * a - 1))) :
    backoffDelay c a = c.retryBaseDelay * (2 * a - 1) := by
  unfold backoffDelay
  rw [wrap64_mul_wrap64, wrap64_of_inInt64 _ h]

theorem waits_tracePrefix (env : Env) (c : Client) (req : SearchRequest)
    (endpoint : GoString) (k : Nat) :
    waits (tracePrefix env c req endpoint (k + 1)) =
      (List.range' 1 k).map (fun i : Nat => backoffDelay c (i : Int)) := by
  induction k with
  | zero =>
    simp [tracePrefix, attemptEvents, waits_append, waits_preWait, waits_performRequest, waits_nil]
  | succ k ih =>
    rw [tracePrefix, waits_append, ih, attemptEvents, waits_append, waits_preWait,
      waits_performRequest, List.range'_concat, List.map_append]
    have hpos : ((k + 1 : Nat) : Int) > 0 := by exact_mod_cast Nat.succ_pos k
    simp [hpos, Nat.add_comm]

theorem warnings_preWait_zero (c : Client) : warnings (preWait c 0) = [] := by
  simp [preWait, warnings_nil]

/-- The trace of a call that fails `k` times with retryable errors and then succeeds. -/
theorem retry_then_success_trace (env : Env) (c : Client) (req : SearchRequest)
    (endpoint : GoString) (k : Nat) (hk : (k : Int) ≤ c.retryCount)
    (hfail : ∀ i, i < k → ∃ e, (performRequest env c req endpoint i).1 = some e ∧
      shouldRetry env.toLower c e (i : Int) = true)
    (hok : (performRequest env c req endpoint k).1 = none)
    (hwait : ∀ i : Nat, 0 < i → i ≤ k →
      env.ctxDone (i : Int) (backoffDelay c (i : Int)) = none) :
    performRequestWithRetry env c req endpoint =
      (none, tracePrefix env c req endpoint (k + 1) ++ successLog c (k : Int)) := by
  unfold performRequestWithRetry
  obtain ⟨m, hm⟩ : ∃ m, (c.retryCount + 1).toNat = k + (m + 1) := by
    refine ⟨(c.retryCount + 1).toNat - (k + 1), ?_⟩
    omega
  rw [hm, retryLoop_failures env c req endpoint k hfail
    (fun i h0 hi => hwait i h0 hi.le) (m + 1),
    retryLoop_attempt env c req endpoint m (k : Int) _ _
      (fun hpos => hwait k (by exact_mod_cast hpos) le_rfl),
    invocations_tracePrefix, hok]
  simp only [tracePrefix, attemptEvents, List.append_assoc]

theorem asciiToLower_lowersAsciiFront : LowersAsciiFront asciiToLower := by
  intro p s _
  simp [asciiToLower]

theorem toLower_apiErrorText (toLower : GoString → GoString) (hlow : LowersAsciiFront toLower)
    (statusCode : Int) (hascii : IsAscii (apiErrorFront statusCode)) (body : GoString) :
    toLower (GoError.leaf (apiErrorText statusCode body)).Error =
      asciiToLower (apiErrorFront statusCode) ++ toLower body :=
  hlow (apiErrorFront statusCode) body hascii

theorem toLower_wrap (toLower : GoString → GoString) (hlow : LowersAsciiFront toLower)
    (front : GoString) (hascii : IsAscii front) (cause : GoError) :
    toLower (GoError.wrap front cause).Error = asciiToLower front ++ toLower cause.Error :=
  hlow front cause.Error hascii

/-- A message whose lowered front is free of retry keywords but holds a terminal one, and
whose remainder holds no retry keyword, is never retried. -/
theorem shouldRetry_terminal_front (toLower : GoString → GoString) (c : Client)
    (err : GoError) (p b kt : GoString) (a : Int) (hlow : toLower err.Error = p ++ b)
    (hclean : cleanFront p retryKeywords = true)
    (hb : ∀ k ∈ retryKeywords, Contains b k = false)
    (hkt : kt ∈ noRetry) (hin : Contains p kt = true) :
    shouldRetry toLower c err a = false := by
  have h1 : cleanFront p networkErrors = true :=
    cleanFront_mono p _ _ (fun k hk => by simp [retryKeywords, hk]) hclean
  have h3 : Contains (p ++ b) (str "rate limit") = false := by
    rw [Contains_append_of_mem p b _ _ hclean (by simp [retryKeywords])]
    exact hb _ (by simp [retryKeywords])
  have h4 : Contains (p ++ b) (str "429") = false := by
    rw [Contains_append_of_mem p b _ _ hclean (by simp [retryKeywords])]
    exact hb _ (by simp [retryKeywords])
  have h5 : networkErrors.any (fun k => Contains (p ++ b) k) = false := by
    rw [any_Contains_append p b _ h1, List.any_eq_false]
    intro k hk
    rw [hb k (by simp [retryKeywords, hk])]
    simp
  have h6 : noRetry.any (fun k => Contains (p ++ b) k) = true := by
    rw [List.any_eq_true]
    refine ⟨kt, hkt, ?_⟩
    rw [Contains_iff]
    exact ((Contains_iff _ _).1 hin).trans (List.prefix_append p b).isInfix
  unfold shouldRetry
  simp only [hlow, h3, h4, h5, h6]
  split_ifs <;> simp_all

/-- Rules 2 to 5 on an already lowered text, while attempts remain. -/
theorem shouldRetry_leaf_iff (c : Client) (b : GoString) (a : Int) (ha : a < c.retryCount) :
    shouldRetry (fun s => s) c (.leaf b) a = true ↔
      (∃ k ∈ retryKeywords, Contains b k = true) ∨ ∀ k ∈ noRetry, Contains b k = false := by
  unfold shouldRetry
  rw [if_neg (not_le.mpr ha)]
  simp only [GoError.Error]
  by_cases h1 : networkErrors.any (fun k => Contains b k) = true
  · simp only [h1, if_true, true_iff]
    left
    obtain ⟨k, hk, hc⟩ := List.any_eq_true.1 h1
    exact ⟨k, by simp [retryKeywords, hk], hc⟩
  · by_cases h2 : (Contains b (str "rate limit") || Contains b (str "429")) = true
    · simp only [h1, h2, Bool.false_eq_true, if_false, if_true, true_iff]
      left
      rcases Bool.or_eq_true _ _ ▸ h2 with h | h
      · exact ⟨_, by simp [retryKeywords], h⟩
      · exact ⟨_, by simp [retryKeywords], h⟩
    · have hno : ¬ ∃ k ∈ retryKeywords, Contains b k = true := by
        rintro ⟨k, hk, hc⟩
        rcases List.mem_append.1 hk with hk | hk
        · exact h1 (List.any_eq_true.2 ⟨k, hk, hc⟩)
        · simp only [List.mem_cons, List.mem_singleton, List.not_mem_nil, or_false] at hk
          rcases hk with rfl | rfl
          · exact h2 (by simp [hc])
          · exact h2 (by simp [hc])
      by_cases h3 : noRetry.any (fun k => Contains b k) = true
      · simp only [h1, h2, h3, Bool.false_eq_true, if_false, if_true, false_iff, not_or]
        refine ⟨hno, ?_⟩
        obtain ⟨k, hk, hc⟩ := List.any_eq_true.1 h3
        intro hall
        rw [hall k hk] at hc
        exact absurd hc (by simp)
      · simp only [h1, h2, h3, Bool.false_eq_true, if_false, true_iff]
        right
        intro k hk
        by_contra hc
        exact h3 (List.any_eq_true.2 ⟨k, hk, by simpa using hc⟩)

/-- A first attempt that fails with an error `shouldRetry` rejects ends the call. -/
theorem first_attempt_terminal (env : Env) (c : Client) (req : SearchRequest)
    (endpoint : GoString) (e : GoError) (hN : 0 ≤ c.retryCount)
    (hfirst : (performRequest env c req endpoint 0).1 = some e)
    (hterm : shouldRetry env.toLower c e 0 = false) :
    performRequestWithRetry env c req endpoint =
      (some (failedAfter c (some e)), (performRequest env c req endpoint 0).2) := by
  unfold performRequestWithRetry
  obtain ⟨m, hm⟩ : ∃ m, (c.retryCount + 1).toNat = m + 1 := ⟨c.retryCount.toNat, by omega⟩
  rw [hm, retryLoop_attempt env c req endpoint m 0 _ _ (fun h => absurd h (by decide))]
  simp only [invocations_nil, hfirst, hterm, if_true, preWait, lt_self_iff_false, gt_iff_lt,
    if_false, List.append_nil, List.nil_append]

theorem marshalled_nil : marshalled [] = [] := rfl

theorem marshalled_cons (e : Event) (t : List Event) :
    marshalled (e :: t) = (match e with | .marshal r => [r] | _ => []) ++ marshalled t := by
  cases e <;> simp [marshalled, List.filterMap_cons]

theorem marshalled_performRequest (env : Env) (c : Client) (req : SearchRequest)
    (endpoint : GoString) (n : Nat) :
    marshalled (performRequest env c req endpoint n).2 = [clampedRequest req] := by
  unfold performRequest clampedRequest clampedQuery len
  simp only
  by_cases h : ((req.Query.length : Nat) : Int) > 400
  · have h' : ¬ req.Query.length ≤ 400 := by omega
    simp only [h, h', if_true, if_false]
    (repeat' split) <;>
      simp [marshalled_append, marshalled_logIf, marshalled_cons, marshalled_nil]
  · have h' : req.Query.length ≤ 400 := by omega
    simp only [h, h', if_true, if_false]
    (repeat' split) <;>
      simp [marshalled_append, marshalled_logIf, marshalled_cons, marshalled_nil]

theorem marshalled_preWait (c : Client) (a : Int) : marshalled (preWait c a) = [] := by
  unfold preWait
  split_ifs
  · rw [marshalled_append, marshalled_logIf]; rfl
  · rfl

theorem marshalled_successLog (c : Client) (a : Int) : marshalled (successLog c a) = [] := by
  unfold successLog
  split_ifs
  · exact marshalled_logIf _ _ _ _
  · rfl

theorem marshalled_retryLoop (env : Env) (c : Client) (req : SearchRequest)
    (endpoint : GoString) (remaining : Nat) (a : Int) (lastErr : Option GoError)
    (t : List Event) (ht : ∀ r ∈ marshalled t, r = clampedRequest req) :
    ∀ r ∈ marshalled (retryLoop env c req endpoint remaining a lastErr t).2,
      r = clampedRequest req := by
  induction remaining generalizing a lastErr t with
  | zero => simpa [retryLoop] using ht
  | succ m ih =>
    by_cases hc : a > 0 ∧ ∃ ctxErr, env.ctxDone a (backoffDelay c a) = some ctxErr
    · obtain ⟨ha, ctxErr, hdone⟩ := hc
      rw [retryLoop_cancelled env c req endpoint m a lastErr t ctxErr ha hdone]
      simpa [marshalled_append, marshalled_preWait] using ht
    · have hnone : a > 0 → env.ctxDone a (backoffDelay c a) = none := by
        intro ha
        cases h : env.ctxDone a (backoffDelay c a) with
        | none => rfl
        | some ctxErr => exact absurd ⟨ha, ctxErr, h⟩ hc
      have hstep : ∀ r ∈ marshalled (t ++ preWait c a ++
          (performRequest env c req endpoint (invocations t)).2), r = clampedRequest req := by
        intro r hr
        simp only [marshalled_append, marshalled_preWait, marshalled_performRequest,
          List.append_nil, List.mem_append, List.mem_singleton] at hr
        rcases hr with hr | hr
        · exact ht r hr
        · exact hr
      rw [retryLoop_attempt env c req endpoint m a lastErr t hnone]
      cases hres : (performRequest env c req endpoint (invocations t)).1 with
      | none =>
        intro r hr
        simp only [marshalled_append, marshalled_successLog, List.append_nil] at hr
        exact hstep r (by simpa only [marshalled_append] using hr)
      | some err =>
        simp only
        split_ifs
        · exact hstep
        · exact ih _ _ _ hstep

theorem performRequest_clamped (env : Env) (c : Client) (req : SearchRequest)
    (endpoint : GoString) (n : Nat) :
    (performRequest env c req endpoint n).1 =
      (performRequest env c (clampedRequest req) endpoint n).1 := by
  unfold performRequest clampedRequest clampedQuery len
  simp only
  by_cases h : ((req.Query.length : Nat) : Int) > 400
  · have h' : ¬ req.Query.length ≤ 400 := by omega
    have h2 : ¬ (((List.take 400 req.Query).length : Nat) : Int) > 400 := by
      rw [List.length_take]; omega
    simp only [h, h', h2, if_true, if_false]
    (repeat' split) <;> simp_all
  · have h' : req.Query.length ≤ 400 := by omega
    simp only [h, h', if_true, if_false]

theorem utf8Encode_ascii (q : List Char) (h : ∀ ch ∈ q, ch.toNat < 128) :
    utf8Encode q = q.map Char.toNat := by
  induction q with
  | nil => rfl
  | cons ch q ih =>
    have hch := h ch (List.mem_cons_self _ _)
    simp [utf8Encode, utf8EncodeChar, hch, ih (fun x hx => h x (List.mem_cons_of_mem _ hx))]

theorem applyOptions_frame (opts : List ClientOption) (c0 : Client) :
    (applyOptions opts c0).apiKey = c0.apiKey ∧
    (applyOptions opts c0).lastRawResponse = c0.lastRawResponse ∧
    ((∀ o ∈ opts, ∀ n d, o ≠ .retryConfig n d) →
      (applyOptions opts c0).retryCount = c0.retryCount ∧
      (applyOptions opts c0).retryBaseDelay = c0.retryBaseDelay) ∧
    ((∀ o ∈ opts, ∀ r t, o ≠ .timeouts r t) →
      (applyOptions opts c0).requestTimeout = c0.requestTimeout ∧
      (applyOptions opts c0).totalTimeout = c0.totalTimeout) ∧
    ((∀ o ∈ opts, ∀ u, o ≠ .baseURL u) → (applyOptions opts c0).baseURL = c0.baseURL) ∧
    ((∀ o ∈ opts, ∀ l, o ≠ .logger l) → (applyOptions opts c0).logger = c0.logger) ∧
    ((∀ o ∈ opts, (∀ h, o ≠ .httpClient h) ∧ ∀ r t, o ≠ .timeouts r t) →
      (applyOptions opts c0).httpClient = c0.httpClient) := by
  induction opts generalizing c0 with
  | nil => simp [applyOptions]
  | cons o opts ih =>
    have h := ih (o.apply c0)
    have hstep : applyOptions (o :: opts) c0 = applyOptions opts (o.apply c0) := rfl
    rw [hstep]
    obtain ⟨h1, h2, h3, h4, h5, h6, h7⟩ := h
    refine ⟨?_, ?_, ?_, ?_, ?_, ?_, ?_⟩
    · rw [h1]; cases o <;> rfl
    · rw [h2]; cases o <;> rfl
    · intro hno
      have := h3 (fun x hx => hno x (List.mem_cons_of_mem _ hx))
      rw [this.1, this.2]
      have ho := hno o (List.mem_cons_self _ _)
      cases o with
      | retryConfig n d => exact absurd rfl (ho n d)
      | _ => exact ⟨rfl, rfl⟩
    · intro hno
      have := h4 (fun x hx => hno x (List.mem_cons_of_mem _ hx))
      rw [this.1, this.2]
      have ho := hno o (List.mem_cons_self _ _)
      cases o with
      | timeouts r t => exact absurd rfl (ho r t)
      | _ => exact ⟨rfl, rfl⟩
    · intro hno
      rw [h5 (fun x hx => hno x (List.mem_cons_of_mem _ hx))]
      have ho := hno o (List.mem_cons_self _ _)
      cases o with
      | baseURL u => exact absurd rfl (ho u)
      | _ => rfl
    · intro hno
      rw [h6 (fun x hx => hno x (List.mem_cons_of_mem _ hx))]
      have ho := hno o (List.mem_cons_self _ _)
      cases o with
      | logger l => exact absurd rfl (ho l)
      | _ => rfl
    · intro hno
      rw [h7 (fun x hx => hno x (List.mem_cons_of_mem _ hx))]
      have ho := hno o (List.mem_cons_self _ _)
      cases o with
      | httpClient h => exact absurd rfl (ho.1 h)
      | timeouts r t => exact absurd rfl (ho.2 r t)
      | _ => rfl

theorem ensureHTTPClient_frame (client : Client) :
    (ensureHTTPClient client).apiKey = client.apiKey ∧
    (ensureHTTPClient client).baseURL = client.baseURL ∧
    (ensureHTTPClient client).logger = client.logger ∧
    (ensureHTTPClient client).retryCount = client.retryCount ∧
    (ensureHTTPClient client).retryBaseDelay = client.retryBaseDelay ∧
    (ensureHTTPClient client).requestTimeout = client.requestTimeout ∧
    (ensureHTTPClient client).totalTimeout = client.totalTimeout ∧
    (ensureHTTPClient client).lastRawResponse = client.lastRawResponse := by
  unfold ensureHTTPClient
  split_ifs <;> simp

theorem invocations_successLog (c : Client) (a : Int) : invocations (successLog c a) = 0 := by
  unfold successLog
  split_ifs
  · exact invocations_logIf _ _ _ _
  · rfl

/-- Each iteration adds at most one invocation, and none is ever removed. -/
theorem invocations_retryLoop (env : Env) (c : Client) (req : SearchRequest)
    (endpoint : GoString) (remaining : Nat) (a : Int) (lastErr : Option GoError)
    (t : List Event) :
    invocations t ≤ invocations (retryLoop env c req endpoint remaining a lastErr t).2 ∧
    invocations (retryLoop env c req endpoint remaining a lastErr t).2 ≤
      invocations t + remaining := by
  induction remaining generalizing a lastErr t with
  | zero => simp [retryLoop]
  | succ m ih =>
    by_cases hc : a > 0 ∧ ∃ ctxErr, env.ctxDone a (backoffDelay c a) = some ctxErr
    · obtain ⟨ha, ctxErr, hdone⟩ := hc
      rw [retryLoop_cancelled env c req endpoint m a lastErr t ctxErr ha hdone]
      simp only [invocations_append, invocations_preWait]
      omega
    · have hnone : a > 0 → env.ctxDone a (backoffDelay c a) = none := by
        intro ha
        cases h : env.ctxDone a (backoffDelay c a) with
        | none => rfl
        | some ctxErr => exact absurd ⟨ha, ctxErr, h⟩ hc
      have hstep : invocations (t ++ preWait c a ++
          (performRequest env c req endpoint (invocations t)).2) = invocations t + 1 := by
        simp only [invocations_append, invocations_preWait, invocations_performRequest]
      rw [retryLoop_attempt env c req endpoint m a lastErr t hnone]
      cases hres : (performRequest env c req endpoint (invocations t)).1 with
      | none =>
        simp only [invocations_append, invocations_successLog, invocations_preWait,
          invocations_performRequest]
        omega
      | some err =>
        simp only
        split_ifs
        · simp only [hstep]; omega
        · have h := ih (a + 1) (some err)
            (t ++ preWait c a ++ (performRequest env c req endpoint (invocations t)).2)
          rw [hstep] at h
          omega

/-- With a non-negative retry count the first iteration runs the executor. -/
theorem invocations_pos (env : Env) (c : Client) (req : SearchRequest)
    (endpoint : GoString) (hr : 0 ≤ c.retryCount) :
    1 ≤ invocations (performRequestWithRetry env c req endpoint).2 := by
  unfold performRequestWithRetry
  obtain ⟨m, hm⟩ : ∃ m, (c.retryCount + 1).toNat = m + 1 := ⟨c.retryCount.toNat, by omega⟩
  rw [hm, retryLoop_attempt env c req endpoint m 0 none [] (fun h => absurd h (by decide))]
  have hstep : invocations ([] ++ preWait c 0 ++
      (performRequest env c req endpoint (invocations [])).2) = 1 := by
    simp only [invocations_append, invocations_preWait, invocations_performRequest,
      invocations_nil]
  cases hres : (performRequest env c req endpoint (invocations [])).1 with
  | none =>
    simp only [invocations_append, invocations_successLog, invocations_preWait,
      invocations_performRequest, invocations_nil]
    omega
  | some err =>
    simp only
    split_ifs
    · simp only [hstep]; omega
    · have h := (invocations_retryLoop env c req endpoint m (0 + 1) (some err)
        ([] ++ preWait c 0 ++ (performRequest env c req endpoint (invocations [])).2)).1
      rw [hstep] at h
      exact h

/-- The counted loop is the loop as written: with more fuel than iterations left, the
condition-tested loop returns what `retryLoop` returns. -/
theorem retryLoopFuel_eq (env : Env) (c : Client) (req : SearchRequest)
    (endpoint : GoString) (hr : InInt64 c.retryCount) (fuel : Nat) (a : Int)
    (lastErr : Option GoError) (t : List Event) (ha : 0 ≤ a)
    (hfuel : (c.retryCount + 1 - a).toNat < fuel) :
    retryLoopFuel env c req endpoint fuel a lastErr t =
      some (retryLoop env c req endpoint (c.retryCount + 1 - a).toNat a lastErr t) := by
  induction fuel generalizing a lastErr t with
  | zero => omega
  | succ fuel ih =>
    by_cases hle : a ≤ c.retryCount
    · obtain ⟨m, hm⟩ : ∃ m, (c.retryCount + 1 - a).toNat = m + 1 :=
        ⟨(c.retryCount - a).toNat, by omega⟩
      rw [hm]
      simp only [retryLoopFuel, retryLoop, hle, if_true]
      split
      next ctxErr hcx => simp only [hcx]
      next hcx =>
        try simp only [hcx]
        split
        next hres => simp only [hres]
        next err hres =>
          try simp only [hres]
          cases hsr : shouldRetry env.toLower c err a with
          | false => simp only [Bool.not_false, if_true]
          | true =>
            simp only [Bool.not_true, Bool.false_eq_true, if_false]
            have hlt : a < c.retryCount := shouldRetry_lt _ _ _ _ hsr
            have hw : wrap64 (a + 1) = a + 1 :=
              wrap64_of_inInt64 _ (by unfold InInt64 at *; omega)
            rw [hw, ih (a + 1) _ _ (by omega) (by omega)]
            have hm' : (c.retryCount + 1 - (a + 1)).toNat = m := by omega
            rw [hm']
    · have h0 : (c.retryCount + 1 - a).toNat = 0 := by omega
      rw [h0]
      simp only [retryLoopFuel, retryLoop, hle, if_false]

/-! ## Claims -/

/-- C1: for every client, error and attempt index, `shouldRetry` equals the five-rule
reference evaluated in order on the lower-cased message (for every lowering function); in
particular a message holding a keyword of rules 2 or 3 is retried while attempts remain,
whatever terminal keyword it also holds. -/
theorem shouldRetry_refines_reference (toLower : GoString → GoString) (c : Client)
    (err : GoError) (a : Int) :
    shouldRetry toLower c err a = shouldRetryReference toLower c.retryCount err.Error a ∧
    (a < c.retryCount → (∃ k ∈ retryKeywords, k <:+: toLower err.Error) →
      shouldRetry toLower c err a = true) := by
  constructor
  · unfold shouldRetry shouldRetryReference
    simp only [networkErrors, noRetry, List.any_eq_true, Contains_iff, Bool.or_eq_true]
  · rintro ha ⟨k, hk, hin⟩
    have h := shouldRetry_of_front_keyword toLower c err (toLower err.Error) [] k a
      (List.append_nil _).symm hk ((Contains_iff _ _).2 hin) ha
    exact h

/-- Witness for C1: the message "500 Unauthorized" holds a retryable and a terminal keyword
and is retried at attempt 0 of a client with retry count 3. -/
theorem shouldRetry_refines_reference_witness :
    (0 : Int) < (initialClient (str "k")).retryCount ∧
    shouldRetry asciiToLower (initialClient (str "k")) (.leaf (str "500 Unauthorized")) 0 = true :=
  ⟨by decide,
    (shouldRetry_refines_reference asciiToLower (initialClient (str "k"))
      (.leaf (str "500 Unauthorized")) 0).2 (by decide)
      ⟨str "500", by decide, (Contains_iff _ _).1 (by decide)⟩⟩

/-- C2: if the executor fails with an error `shouldRetry` accepts on its first `k`
invocations (`k ≤ retryCount`), succeeds on invocation `k + 1`, and no wait is cut short,
then `performRequestWithRetry` returns nil, invokes the executor exactly `k + 1` times and
waits exactly `k` times, the `i`-th wait being the 64-bit product
`retryBaseDelay * (2*i - 1)`, which is the integer `d * (2*i - 1)` whenever that fits a
`time.Duration`; for `k = 0` there is no wait and no `Warn` call. -/
theorem retry_then_success (env : Env) (c : Client) (req : SearchRequest)
    (endpoint : GoString) (k : Nat) (hk : (k : Int) ≤ c.retryCount)
    (hfail : ∀ i, i < k → ∃ e, (performRequest env c req endpoint i).1 = some e ∧
      shouldRetry env.toLower c e (i : Int) = true)
    (hok : (performRequest env c req endpoint k).1 = none)
    (hwait : ∀ i : Nat, 0 < i → i ≤ k →
      env.ctxDone (i : Int) (backoffDelay c (i : Int)) = none) :
    (performRequestWithRetry env c req endpoint).1 = none ∧
    invocations (performRequestWithRetry env c req endpoint).2 = k + 1 ∧
    waits (performRequestWithRetry env c req endpoint).2 =
      (List.range' 1 k).map (fun i : Nat => backoffDelay c (i : Int)) ∧
    ((∀ i : Nat, 1 ≤ i → i ≤ k → InInt64 (c.retryBaseDelay * (2 * (i : Int) - 1))) →
      waits (performRequestWithRetry env c req endpoint).2 =
        (List.range' 1 k).map (fun i : Nat => c.retryBaseDelay * (2 * (i : Int) - 1))) ∧
    (k = 0 → waits (performRequestWithRetry env c req endpoint).2 = [] ∧
      warnings (performRequestWithRetry env c req endpoint).2 = []) := by
  have htrace := retry_then_success_trace env c req endpoint k hk hfail hok hwait
  have hsw : waits (successLog c (k : Int)) = [] := by
    unfold successLog; split_ifs
    · exact waits_logIf _ _ _ _
    · rfl
  have hsi : invocations (successLog c (k : Int)) = 0 := by
    unfold successLog; split_ifs
    · exact invocations_logIf _ _ _ _
    · rfl
  have hw : waits (performRequestWithRetry env c req endpoint).2 =
      (List.range' 1 k).map (fun i : Nat => backoffDelay c (i : Int)) := by
    rw [htrace]; simp only [waits_append, waits_tracePrefix, hsw, List.append_nil]
  refine ⟨by rw [htrace], ?_, hw, ?_, ?_⟩
  · rw [htrace]; simp only [invocations_append, invocations_tracePrefix, hsi, Nat.add_zero]
  · intro hrange
    rw [hw]
    apply List.map_congr_left
    intro i hi
    rw [List.mem_range'_1] at hi
    exact backoffDelay_eq c _ (hrange i hi.1 (by omega))
  · intro h0
    subst h0
    refine ⟨by rw [hw]; rfl, ?_⟩
    rw [htrace]
    simp only [tracePrefix, attemptEvents, warnings_append, warnings_nil, warnings_performRequest,
      successLog, List.nil_append, List.append_nil]
    simp [preWait, warnings_nil]

/-- Witness for C2: two failures with status 500, then success, base delay 5ms, retry
count 3: three invocations and the waits 5ms and 15ms. -/
theorem retry_then_success_witness :
    (performRequestWithRetry (flakyServer 2)
      (NewClient (str "k") [.retryConfig 3 5000000, .logger (some ⟨0⟩)])
      (queryOnly (str "q")) (str "/search")).1 = none ∧
    invocations (performRequestWithRetry (flakyServer 2)
      (NewClient (str "k") [.retryConfig 3 5000000, .logger (some ⟨0⟩)])
      (queryOnly (str "q")) (str "/search")).2 = 3 ∧
    waits (performRequestWithRetry (flakyServer 2)
      (NewClient (str "k") [.retryConfig 3 5000000, .logger (some ⟨0⟩)])
      (queryOnly (str "q")) (str "/search")).2 = [5000000, 15000000] := by
  have h := retry_then_success (flakyServer 2)
    (NewClient (str "k") [.retryConfig 3 5000000, .logger (some ⟨0⟩)])
    (queryOnly (str "q")) (str "/search") 2 (by decide)
    (fun i hi => by
      interval_cases i
      · exact ⟨.leaf (apiErrorText 500 []), by decide, by decide⟩
      · exact ⟨.leaf (apiErrorText 500 []), by decide, by decide⟩)
    (by decide) (fun _ _ _ => rfl)
  exact ⟨h.1, h.2.1, h.2.2.1.trans (by decide)⟩

/-- C3: with retry count `N ≥ 0` (and `N + 1` an `int`), if every attempt yields status 500,
whatever the bodies, and no wait is cut short, `performRequestWithRetry` invokes the executor
exactly `N + 1` times and returns the error "request failed after N+1 attempts: " wrapping
the `api error: status 500, body: ...` error of the final attempt. -/
theorem always_500_exhausts (env : Env) (c : Client) (req : SearchRequest)
    (endpoint : GoString) (body : Nat → GoString)
    (hlow : LowersAsciiFront env.toLower)
    (hN : 0 ≤ c.retryCount) (hmax : c.retryCount < 9223372036854775807)
    (h500 : ∀ i, (performRequest env c req endpoint i).1 =
      some (.leaf (apiErrorText 500 (body i))))
    (hwait : ∀ i : Nat, 0 < i → env.ctxDone (i : Int) (backoffDelay c (i : Int)) = none) :
    invocations (performRequestWithRetry env c req endpoint).2 = c.retryCount.toNat + 1 ∧
    (performRequestWithRetry env c req endpoint).1 =
      some (.wrap (str "request failed after " ++ fmtInt (c.retryCount + 1) ++ str " attempts: ")
        (.leaf (apiErrorText 500 (body c.retryCount.toNat)))) := by
  have hfail : ∀ i, i < c.retryCount.toNat →
      ∃ e, (performRequest env c req endpoint i).1 = some e ∧
        shouldRetry env.toLower c e (i : Int) = true := by
    intro i hi
    refine ⟨_, h500 i, ?_⟩
    exact shouldRetry_of_front_keyword env.toLower c _ _ _ (str "500") _
      (toLower_apiErrorText env.toLower hlow 500 (by decide) (body i)) (by decide) (by decide)
      (by omega)
  have hrun : performRequestWithRetry env c req endpoint =
      (some (failedAfter c (some (.leaf (apiErrorText 500 (body c.retryCount.toNat))))),
        tracePrefix env c req endpoint (c.retryCount.toNat + 1)) := by
    unfold performRequestWithRetry
    rw [show (c.retryCount + 1).toNat = c.retryCount.toNat + 1 by omega,
      retryLoop_failures env c req endpoint c.retryCount.toNat hfail
        (fun i h0 _ => hwait i h0) 1,
      retryLoop_attempt env c req endpoint 0 _ _ _ (fun _ => hwait _ (by omega)),
      invocations_tracePrefix, h500]
    simp only [shouldRetry_false_of_exhausted env.toLower c _ _
      (show c.retryCount ≤ ((c.retryCount.toNat : Nat) : Int) by omega), if_true, tracePrefix,
      attemptEvents, List.append_assoc]
  rw [hrun]
  refine ⟨invocations_tracePrefix _ _ _ _ _, ?_⟩
  simp only [failedAfter, errorfW]
  rw [wrap64_of_inInt64 _ (by unfold InInt64; omega)]

/-- Witness for C3: a server answering 500 with body "fail", retry count 3: four
invocations and the exhaustion text. -/
theorem always_500_exhausts_witness :
    invocations (performRequestWithRetry (constantServer 500 (str "fail") none)
      (NewClient (str "k") []) (queryOnly (str "q")) (str "/search")).2 = 4 ∧
    (performRequestWithRetry (constantServer 500 (str "fail") none)
      (NewClient (str "k") []) (queryOnly (str "q")) (str "/search")).1.map GoError.Error =
      some (str "request failed after 4 attempts: api error: status 500, body: fail") := by
  have h := always_500_exhausts (constantServer 500 (str "fail") none)
    (NewClient (str "k") []) (queryOnly (str "q")) (str "/search") (fun _ => str "fail")
    asciiToLower_lowersAsciiFront (by decide) (by decide) (fun _ => rfl) (fun _ _ => rfl)
  refine ⟨h.1, ?_⟩
  rw [h.2]
  decide

/-- Counterexample to C4: a 401 response whose body is "session timeout" is classified
retryable, and the call makes four invocations with three backoff waits. -/
theorem unauthorized_retried_counterexample :
    shouldRetry asciiToLower (NewClient (str "k") [])
      (.leaf (apiErrorText 401 (str "session timeout"))) 0 = true ∧
    invocations (performRequestWithRetry (constantServer 401 (str "session timeout") none)
      (NewClient (str "k") []) (queryOnly (str "q")) (str "/search")).2 = 4 ∧
    waits (performRequestWithRetry (constantServer 401 (str "session timeout") none)
      (NewClient (str "k") []) (queryOnly (str "q")) (str "/search")).2 =
        [1000000000, 3000000000, 5000000000] := by
  decide

/-- C4 as amended: for every retry count `≥ 0`, if the server always answers status 401 and
the lower-cased body of the first answer holds no keyword of rules 2 and 3, the error
`api error: status 401, body: <body>` is rejected by `shouldRetry` at every attempt index and
the call fails after exactly one executor invocation, with no backoff wait. -/
theorem unauthorized_not_retried (env : Env) (c : Client) (req : SearchRequest)
    (endpoint : GoString) (body : Nat → GoString)
    (hlow : LowersAsciiFront env.toLower) (hN : 0 ≤ c.retryCount)
    (h401 : ∀ i, (performRequest env c req endpoint i).1 =
      some (.leaf (apiErrorText 401 (body i))))
    (hbody : ∀ k ∈ retryKeywords, Contains (env.toLower (body 0)) k = false) :
    (∀ a, shouldRetry env.toLower c (.leaf (apiErrorText 401 (body 0))) a = false) ∧
    (performRequestWithRetry env c req endpoint).1 =
      some (failedAfter c (some (.leaf (apiErrorText 401 (body 0))))) ∧
    invocations (performRequestWithRetry env c req endpoint).2 = 1 ∧
    waits (performRequestWithRetry env c req endpoint).2 = [] := by
  have hterm : ∀ a, shouldRetry env.toLower c (.leaf (apiErrorText 401 (body 0))) a = false :=
    fun a => shouldRetry_terminal_front env.toLower c _ _ _ (str "401") a
      (toLower_apiErrorText env.toLower hlow 401 (by decide) (body 0)) (by decide) hbody
      (by decide) (by decide)
  rw [first_attempt_terminal env c req endpoint _ hN (h401 0) (hterm 0)]
  exact ⟨hterm, rfl, invocations_performRequest _ _ _ _ _, waits_performRequest _ _ _ _ _⟩

/-- Witness for C4 as amended: status 401 with body "denied". -/
theorem unauthorized_not_retried_witness :
    invocations (performRequestWithRetry (constantServer 401 (str "denied") none)
      (NewClient (str "k") []) (queryOnly (str "q")) (str "/search")).2 = 1 ∧
    waits (performRequestWithRetry (constantServer 401 (str "denied") none)
      (NewClient (str "k") []) (queryOnly (str "q")) (str "/search")).2 = [] :=
  (unauthorized_not_retried (constantServer 401 (str "denied") none)
    (NewClient (str "k") []) (queryOnly (str "q")) (str "/search") (fun _ => str "denied")
    asciiToLower_lowersAsciiFront (by decide) (fun _ => rfl) (by decide)).2.2

/-- Counterexample to C5: the decode error for the number `1.500` in an `int` field holds
"500"; it is classified retryable at attempt 0 and the call makes four invocations. -/
theorem decode_failure_retried_counterexample :
    shouldRetry asciiToLower (NewClient (str "k") [])
      (.wrap (str "unmarshal response: ") (.leaf (str
        "json: cannot unmarshal number 1.500 into Go struct field SearchResult.organic.position of type int")))
      0 = true ∧
    invocations (performRequestWithRetry
      (constantServer 200 (str "\x7b\"organic\":[\x7b\"position\":1.500\x7d]\x7d")
        (some (.leaf (str
          "json: cannot unmarshal number 1.500 into Go struct field SearchResult.organic.position of type int"))))
      (NewClient (str "k") []) (queryOnly (str "q")) (str "/search")).2 = 4 := by
  decide

/-- C5 as amended: for every parse error whose lower-cased text holds no keyword of rules
2 and 3, `shouldRetry` rejects the executor's error `unmarshal response: <e>` at every attempt
index, and a call whose first response fails to decode this way makes exactly one executor
invocation. -/
theorem decode_failure_not_retried (env : Env) (c : Client) (cause : GoError)
    (hlow : LowersAsciiFront env.toLower)
    (hcause : ∀ k ∈ retryKeywords, Contains (env.toLower cause.Error) k = false) :
    (∀ a, shouldRetry env.toLower c (.wrap (str "unmarshal response: ") cause) a = false) ∧
    (∀ req endpoint, 0 ≤ c.retryCount →
      (performRequest env c req endpoint 0).1 =
        some (.wrap (str "unmarshal response: ") cause) →
      invocations (performRequestWithRetry env c req endpoint).2 = 1 ∧
      (performRequestWithRetry env c req endpoint).1 =
        some (failedAfter c (some (.wrap (str "unmarshal response: ") cause)))) := by
  have hterm : ∀ a,
      shouldRetry env.toLower c (.wrap (str "unmarshal response: ") cause) a = false :=
    fun a => shouldRetry_terminal_front env.toLower c _ _ _ (str "unmarshal") a
      (toLower_wrap env.toLower hlow _ (by decide) cause) (by decide) hcause
      (by decide) (by decide)
  refine ⟨hterm, fun req endpoint hN hfirst => ?_⟩
  rw [first_attempt_terminal env c req endpoint _ hN hfirst (hterm 0)]
  exact ⟨invocations_performRequest _ _ _ _ _, rfl⟩

/-- Witness for C5 as amended: the parse error "unexpected end of JSON input". -/
theorem decode_failure_not_retried_witness :
    shouldRetry asciiToLower (NewClient (str "k") [])
      (.wrap (str "unmarshal response: ") (.leaf (str "unexpected end of JSON input"))) 0 =
      false ∧
    invocations (performRequestWithRetry
      (constantServer 200 (str "not-json") (some (.leaf (str "unexpected end of JSON input"))))
      (NewClient (str "k") []) (queryOnly (str "q")) (str "/search")).2 = 1 :=
  ⟨(decode_failure_not_retried
      (constantServer 200 (str "not-json") (some (.leaf (str "unexpected end of JSON input"))))
      (NewClient (str "k") []) (.leaf (str "unexpected end of JSON input"))
      asciiToLower_lowersAsciiFront (by decide)).1 0,
    ((decode_failure_not_retried
      (constantServer 200 (str "not-json") (some (.leaf (str "unexpected end of JSON input"))))
      (NewClient (str "k") []) (.leaf (str "unexpected end of JSON input"))
      asciiToLower_lowersAsciiFront (by decide)).2 (queryOnly (str "q")) (str "/search")
      (by decide) (by decide)).1⟩

/-- Counterexample to C6: with base URL `http://localhost:4000` the transport error
`Post "http://localhost:4000/search": EOF` holds "400" and no retry keyword; it is rejected at
attempt 0 of 3 and the call makes one invocation. -/
theorem transport_failure_terminal_counterexample :
    (0 : Int) < (NewClient (str "k") [.baseURL (str "http://localhost:4000")]).retryCount ∧
    shouldRetry asciiToLower (NewClient (str "k") [.baseURL (str "http://localhost:4000")])
      (.wrap (str "request error: ")
        (.leaf (str "Post \"http://localhost:4000/search\": EOF"))) 0 = false ∧
    invocations (performRequestWithRetry
      (failingTransport (.leaf (str "Post \"http://localhost:4000/search\": EOF")))
      (NewClient (str "k") [.baseURL (str "http://localhost:4000")])
      (queryOnly (str "q")) (str "/search")).2 = 1 := by
  decide

/-- C6 as amended: while attempts remain, `shouldRetry` accepts the transport error
`request error: <cause>` exactly when the lower-cased cause holds a keyword of rules 2 and 3
or holds no keyword of rule 4. -/
theorem transport_failure_retry_iff (env : Env) (c : Client) (cause : GoError) (a : Int)
    (hlow : LowersAsciiFront env.toLower) (ha : a < c.retryCount) :
    shouldRetry env.toLower c (.wrap (str "request error: ") cause) a = true ↔
      ((∃ k ∈ retryKeywords, Contains (env.toLower cause.Error) k = true) ∨
        ∀ k ∈ noRetry, Contains (env.toLower cause.Error) k = false) := by
  rw [shouldRetry_of_front env.toLower c _ _ _ a
    (toLower_wrap env.toLower hlow _ (by decide) cause) (by decide)]
  exact shouldRetry_leaf_iff c _ a ha

/-- Witness for C6 as amended: a DNS failure against the default base URL is retried. -/
theorem transport_failure_retry_iff_witness :
    (0 : Int) < (NewClient (str "k") []).retryCount ∧
    shouldRetry asciiToLower (NewClient (str "k") [])
      (.wrap (str "request error: ")
        (.leaf (str "Post \"https://google.serper.dev/search\": dial tcp: lookup google.serper.dev: no such host")))
      0 = true :=
  ⟨by decide,
    (transport_failure_retry_iff
      (failingTransport (.leaf (str "Post \"https://google.serper.dev/search\": dial tcp: lookup google.serper.dev: no such host")))
      (NewClient (str "k") [])
      (.leaf (str "Post \"https://google.serper.dev/search\": dial tcp: lookup google.serper.dev: no such host"))
      0 asciiToLower_lowersAsciiFront (by decide)).2
      (Or.inl ⟨str "dial", by decide, by decide⟩)⟩

/-- C7 at its failing input: the query of 201 characters `é` (402 bytes) has at most 400
characters, yet the code takes the clamp branch, logs "clamping query to 400 chars" with
`len` 402, and hands `json.Marshal` the first 400 bytes, which are 200 characters and not
the query itself; and for `a` followed by 200 `é` (201 characters, 401 bytes) the cut falls
inside the last character, leaving its lead byte 195 alone at the end. -/
theorem multibyte_query_cut :
    (List.replicate 201 (Char.ofNat 233)).length ≤ 400 ∧
    marshalled (performRequest (constantServer 200 [] none)
      (NewClient (str "k") [.logger (some ⟨0⟩)])
      (queryOnly (utf8Encode (List.replicate 201 (Char.ofNat 233)))) (str "/search") 0).2 =
      [queryOnly (utf8Encode (List.replicate 200 (Char.ofNat 233)))] ∧
    queryOnly (utf8Encode (List.replicate 200 (Char.ofNat 233))) ≠
      queryOnly (utf8Encode (List.replicate 201 (Char.ofNat 233))) ∧
    Event.log ⟨.info, str "clamping query to 400 chars", [.text (str "len"), .int 402]⟩ ∈
      (performRequest (constantServer 200 [] none) (NewClient (str "k") [.logger (some ⟨0⟩)])
        (queryOnly (utf8Encode (List.replicate 201 (Char.ofNat 233)))) (str "/search") 0).2 ∧
    (Char.ofNat 97 :: List.replicate 200 (Char.ofNat 233)).length ≤ 400 ∧
    marshalled (performRequest (constantServer 200 [] none)
      (NewClient (str "k") [.logger (some ⟨0⟩)])
      (queryOnly (utf8Encode (Char.ofNat 97 :: List.replicate 200 (Char.ofNat 233))))
      (str "/search") 0).2 =
      [queryOnly (utf8Encode (Char.ofNat 97 :: List.replicate 199 (Char.ofNat 233)) ++ [195])] := by
  decide

/-- What the clamp of `performRequest` does, in bytes: on every invocation the query handed
to `json.Marshal` is the query itself when `len` is at most 400 and its first 400 bytes
otherwise; every request marshalled during a call of `performRequestWithRetry` is that one;
the outcome is the outcome for the already clamped request; and for an ASCII query the bytes
kept are the characters kept. -/
theorem query_clamped_to_400_bytes (env : Env) (c : Client) (req : SearchRequest)
    (endpoint : GoString) :
    (∀ n, marshalled (performRequest env c req endpoint n).2 =
      [{ req with Query := if req.Query.length ≤ 400 then req.Query else req.Query.take 400 }]) ∧
    (∀ r ∈ marshalled (performRequestWithRetry env c req endpoint).2,
      r = { req with Query := if req.Query.length ≤ 400 then req.Query else req.Query.take 400 }) ∧
    (∀ n, (performRequest env c req endpoint n).1 =
      (performRequest env c
        { req with Query := if req.Query.length ≤ 400 then req.Query else req.Query.take 400 }
        endpoint n).1) ∧
    (∀ q : List Char, (∀ ch ∈ q, ch.toNat < 128) → req.Query = utf8Encode q →
      (if req.Query.length ≤ 400 then req.Query else req.Query.take 400) =
        utf8Encode (if q.length ≤ 400 then q else q.take 400)) := by
  refine ⟨fun n => marshalled_performRequest env c req endpoint n, ?_,
    fun n => performRequest_clamped env c req endpoint n, ?_⟩
  · exact marshalled_retryLoop env c req endpoint _ _ _ _ (by simp [marshalled_nil])
  · intro q hq hreq
    rw [hreq, utf8Encode_ascii q hq]
    split_ifs with h1 h2 h2
    · rw [utf8Encode_ascii q hq]
    · simp at h1; exact absurd h1 h2
    · simp at h1; exact absurd h2 (by omega)
    · rw [utf8Encode_ascii _ (fun ch hch => hq ch (List.mem_of_mem_take hch)), List.map_take]

/-- Counterexample to C8: `WithRetryConfig` changes two fields of the initial client, and
`WithTimeouts` replaces an `httpClient` set before it. -/
theorem retry_config_sets_two_fields_counterexample :
    (WithRetryConfig 5 7 (initialClient (str "k"))).retryCount ≠
      (initialClient (str "k")).retryCount ∧
    (WithRetryConfig 5 7 (initialClient (str "k"))).retryBaseDelay ≠
      (initialClient (str "k")).retryBaseDelay ∧
    (WithTimeouts 5 7 (WithHTTPClient (some ⟨1, .custom 0⟩) (initialClient (str "k")))).httpClient ≠
      (WithHTTPClient (some ⟨1, .custom 0⟩) (initialClient (str "k"))).httpClient := by
  decide

/-- C8 as amended: `WithHTTPClient`, `WithLogger` and `WithBaseURL` each override exactly
one field; `WithRetryConfig` overrides the retry count and the base delay; `WithTimeouts`
overrides both timeouts and installs a fresh HTTP client carrying the request timeout; every
other field is unchanged. After `NewClient`, fields written by none of the given options keep
the defaults: retry count 3, base delay 1s, request timeout 10s, total timeout 30s, the base
URL `https://google.serper.dev`, no logger, and a fresh HTTP client with timeout 10s. -/
theorem options_frame (c : Client) (apiKey : GoString) (opts : List ClientOption) :
    (∀ h, WithHTTPClient h c = { c with httpClient := h }) ∧
    (∀ l, WithLogger l c = { c with logger := l }) ∧
    (∀ u, WithBaseURL u c = { c with baseURL := u }) ∧
    (∀ n d, WithRetryConfig n d c = { c with retryCount := n, retryBaseDelay := d }) ∧
    (∀ r t, WithTimeouts r t c =
      { c with requestTimeout := r, totalTimeout := t,
               httpClient := some { Timeout := r, Transport := captureTransport } }) ∧
    (NewClient apiKey opts).apiKey = apiKey ∧
    ((∀ o ∈ opts, ∀ n d, o ≠ .retryConfig n d) →
      (NewClient apiKey opts).retryCount = 3 ∧
      (NewClient apiKey opts).retryBaseDelay = 1000000000) ∧
    ((∀ o ∈ opts, ∀ r t, o ≠ .timeouts r t) →
      (NewClient apiKey opts).requestTimeout = 10000000000 ∧
      (NewClient apiKey opts).totalTimeout = 30000000000) ∧
    ((∀ o ∈ opts, ∀ u, o ≠ .baseURL u) →
      (NewClient apiKey opts).baseURL = str "https://google.serper.dev") ∧
    ((∀ o ∈ opts, ∀ l, o ≠ .logger l) → (NewClient apiKey opts).logger = none) ∧
    ((∀ o ∈ opts, (∀ h, o ≠ .httpClient h) ∧ ∀ r t, o ≠ .timeouts r t) →
      (NewClient apiKey opts).httpClient =
        some { Timeout := 10000000000, Transport := captureTransport }) := by
  have hN : NewClient apiKey opts = ensureHTTPClient (applyOptions opts (initialClient apiKey)) :=
    rfl
  obtain ⟨e1, e2, e3, e4, e5, e6, e7, _⟩ :=
    ensureHTTPClient_frame (applyOptions opts (initialClient apiKey))
  obtain ⟨a1, _, a3, a4, a5, a6, a7⟩ := applyOptions_frame opts (initialClient apiKey)
  refine ⟨fun _ => rfl, fun _ => rfl, fun _ => rfl, fun _ _ => rfl, fun _ _ => rfl, ?_, ?_, ?_,
    ?_, ?_, ?_⟩
  · rw [hN, e1, a1]; rfl
  · intro h; rw [hN, e4, e5, (a3 h).1, (a3 h).2]; exact ⟨rfl, by simp [initialClient, Second]⟩
  · intro h; rw [hN, e6, e7, (a4 h).1, (a4 h).2]; exact ⟨by simp [initialClient, Second], by simp [initialClient, Second]⟩
  · intro h; rw [hN, e2, a5 h]; rfl
  · intro h; rw [hN, e3, a6 h]; rfl
  · intro h
    have hreq := (a4 (fun o ho => (h o ho).2)).1
    have hnil := a7 h
    rw [hN]
    unfold ensureHTTPClient
    rw [if_pos (by rw [hnil]; rfl), hreq]
    simp [initialClient, Second]

/-- Witness for C8 as amended: with only a base URL and a logger given, the retry
configuration keeps its defaults. -/
theorem options_frame_witness :
    (NewClient (str "k") [.baseURL (str "http://localhost"), .logger (some ⟨0⟩)]).retryCount = 3 ∧
    (NewClient (str "k") [.baseURL (str "http://localhost"), .logger (some ⟨0⟩)]).retryBaseDelay =
      1000000000 :=
  (options_frame (initialClient (str "k")) (str "k")
    [.baseURL (str "http://localhost"), .logger (some ⟨0⟩)]).2.2.2.2.2.2.1
    (fun o ho n d => by
      simp only [List.mem_cons, List.mem_singleton, List.not_mem_nil, or_false] at ho
      rcases ho with rfl | rfl <;> exact fun h => ClientOption.noConfusion h)

/-- C9: for every `n ≥ 1`, if the first `n` attempts fail with errors `shouldRetry` accepts
and the `select` before attempt `n` receives from `ctx.Done()`, `performRequestWithRetry`
returns at once the error "request cancelled during retry delay: " wrapping `ctx.Err()`, and
the executor has been invoked exactly `n` times: the trace ends with that wait. -/
theorem cancelled_during_wait (env : Env) (c : Client) (req : SearchRequest)
    (endpoint : GoString) (n : Nat) (ctxErr : GoError) (hn : 1 ≤ n)
    (hfail : ∀ i, i < n → ∃ e, (performRequest env c req endpoint i).1 = some e ∧
      shouldRetry env.toLower c e (i : Int) = true)
    (hwait : ∀ i : Nat, 0 < i → i < n →
      env.ctxDone (i : Int) (backoffDelay c (i : Int)) = none)
    (hdone : env.ctxDone (n : Int) (backoffDelay c (n : Int)) = some ctxErr) :
    (performRequestWithRetry env c req endpoint).1 =
      some (.wrap (str "request cancelled during retry delay: ") ctxErr) ∧
    invocations (performRequestWithRetry env c req endpoint).2 = n ∧
    (performRequestWithRetry env c req endpoint).2 =
      tracePrefix env c req endpoint n ++ preWait c (n : Int) := by
  obtain ⟨e, _, hs⟩ := hfail (n - 1) (by omega)
  have hlt := shouldRetry_lt _ _ _ _ hs
  have hrun : performRequestWithRetry env c req endpoint =
      (some (cancelledDuringDelay ctxErr),
        tracePrefix env c req endpoint n ++ preWait c (n : Int)) := by
    unfold performRequestWithRetry
    obtain ⟨m, hm⟩ : ∃ m, (c.retryCount + 1).toNat = n + (m + 1) :=
      ⟨(c.retryCount + 1).toNat - (n + 1), by omega⟩
    rw [hm, retryLoop_failures env c req endpoint n hfail hwait (m + 1),
      retryLoop_cancelled env c req endpoint m _ _ _ ctxErr (by exact_mod_cast hn) hdone]
  rw [hrun]
  refine ⟨rfl, ?_, rfl⟩
  simp only [invocations_append, invocations_tracePrefix, invocations_preWait, Nat.add_zero]

/-- Witness for C9: the deadline expires during the wait before attempt 1. -/
theorem cancelled_during_wait_witness :
    (performRequestWithRetry (expiringDeadline 1) (NewClient (str "k") [])
      (queryOnly (str "q")) (str "/search")).1 =
      some (.wrap (str "request cancelled during retry delay: ")
        (.leaf (str "context deadline exceeded"))) ∧
    invocations (performRequestWithRetry (expiringDeadline 1) (NewClient (str "k") [])
      (queryOnly (str "q")) (str "/search")).2 = 1 := by
  have h := cancelled_during_wait (expiringDeadline 1) (NewClient (str "k") [])
    (queryOnly (str "q")) (str "/search") 1 (.leaf (str "context deadline exceeded")) le_rfl
    (fun i hi => by
      interval_cases i
      exact ⟨.leaf (apiErrorText 500 []), by decide, by decide⟩)
    (fun i h0 h1 => absurd h1 (by omega)) (by decide)
  exact ⟨h.1, h.2.1⟩

/-- C10 at its failing input: with retry count 3 and a server answering 401, the executor
is invoked once, and the returned text says "request failed after 4 attempts". -/
theorem attempt_count_overstated :
    invocations (performRequestWithRetry (constantServer 401 (str "denied") none)
      (NewClient (str "k") []) (queryOnly (str "q")) (str "/search")).2 = 1 ∧
    (performRequestWithRetry (constantServer 401 (str "denied") none)
      (NewClient (str "k") []) (queryOnly (str "q")) (str "/search")).1.map GoError.Error =
        some (str "request failed after 4 attempts: api error: status 401, body: denied") := by
  decide

/-- C11: for every retry count and every world, `performRequestWithRetry` terminates (the
loop as written, given more fuel than `retryCount + 1` condition tests, returns its result)
having invoked the executor at most `max(0, retryCount + 1)` times; with `retryCount ≥ 0` it
invokes it at least once; with `retryCount < 0` it invokes it zero times, its trace is
empty, and it returns the non-nil error "request failed after r+1 attempts: %!w(<nil>)",
which wraps nothing. -/
theorem retry_terminates_within_bound (env : Env) (c : Client) (req : SearchRequest)
    (endpoint : GoString) :
    (InInt64 c.retryCount → ∀ fuel, (c.retryCount + 1).toNat < fuel →
      retryLoopFuel env c req endpoint fuel 0 none [] =
        some (performRequestWithRetry env c req endpoint)) ∧
    ((invocations (performRequestWithRetry env c req endpoint).2 : Nat) : Int) ≤
      max 0 (c.retryCount + 1) ∧
    (0 ≤ c.retryCount → 1 ≤ invocations (performRequestWithRetry env c req endpoint).2) ∧
    (c.retryCount < 0 →
      (performRequestWithRetry env c req endpoint).2 = [] ∧
      invocations (performRequestWithRetry env c req endpoint).2 = 0 ∧
      (∃ e, (performRequestWithRetry env c req endpoint).1 = some e ∧ e.Unwrap = none) ∧
      (InInt64 c.retryCount →
        (performRequestWithRetry env c req endpoint).1.map GoError.Error =
          some (str "request failed after " ++ fmtInt (c.retryCount + 1) ++
            str " attempts: %!w(<nil>)"))) := by
  refine ⟨?_, ?_, invocations_pos env c req endpoint, ?_⟩
  · intro hint fuel hfuel
    have h := retryLoopFuel_eq env c req endpoint hint fuel 0 none [] le_rfl
      (by simpa using hfuel)
    rw [h]
    simp only [performRequestWithRetry, sub_zero]
  · have h := (invocations_retryLoop env c req endpoint (c.retryCount + 1).toNat 0 none []).2
    unfold performRequestWithRetry
    rw [invocations_nil] at h
    omega
  · intro hneg
    have hfuel : (c.retryCount + 1).toNat = 0 := by omega
    have hrun : performRequestWithRetry env c req endpoint = (some (failedAfter c none), []) := by
      unfold performRequestWithRetry
      rw [hfuel]
      rfl
    rw [hrun]
    refine ⟨rfl, rfl, ⟨_, rfl, rfl⟩, ?_⟩
    intro hint
    simp only [failedAfter, errorfW, Option.map_some', GoError.Error]
    rw [wrap64_of_inInt64 _ (by unfold InInt64 at *; omega)]
    simp only [List.append_assoc]
    have htail : str " attempts: " ++ str "%!w(<nil>)" = str " attempts: %!w(<nil>)" := by decide
    rw [htail]

/-- Witness for C11: retry count -1: nothing is sent, and the text is "request failed after
0 attempts: %!w(<nil>)". -/
theorem retry_terminates_within_bound_witness :
    (performRequestWithRetry (constantServer 200 [] none)
      (NewClient (str "k") [.retryConfig (-1) 1000000000])
      (queryOnly (str "q")) (str "/search")).2 = [] ∧
    (performRequestWithRetry (constantServer 200 [] none)
      (NewClient (str "k") [.retryConfig (-1) 1000000000])
      (queryOnly (str "q")) (str "/search")).1.map GoError.Error =
      some (str "request failed after 0 attempts: %!w(<nil>)") := by
  have h := (retry_terminates_within_bound (constantServer 200 [] none)
    (NewClient (str "k") [.retryConfig (-1) 1000000000])
    (queryOnly (str "q")) (str "/search")).2.2.2 (by decide)
  exact ⟨h.1, (h.2.2.2 (by decide)).trans (by decide)⟩

end Serper
